import Mathlib

/-!
Verification development for the fuel-ostf test-run lifecycle layer.

The first part shallowly embeds the storage models
(`fuel_plugin/ostf_adapter/storage/models.py`): rows of the `test_runs`,
`test_sets` and `tests` tables become Lean structures, the database session
becomes an explicit `DB` value, and each model method becomes a pure
function from a `DB` (plus the method's arguments) to a new `DB` and/or a
returned value.  The external nose runner collaborator is modelled by its
observable inputs: `plugin.run` has no effect on stored state, and the
boolean answer of `plugin.kill` is passed to `stop` as a parameter.
`datetime.utcnow()` is modelled by an explicit `now : Nat` argument at the
call sites that read the clock.  A method returning `self.frontend` is
modelled as returning the run row itself (the snapshot serialises exactly
that row), and a method returning the Python `{}` refusal value is modelled
as returning `none`.

The second part embeds the timing primitives of `fuel_health/test.py`:
`call_until_true` with an idealised clock (each predicate call is
instantaneous and every sleep advances time by exactly `sleep_for`
seconds, so before the k-th call the elapsed time is `k * sleep_for`), and
the `__exit__` logic of `ExecutionTimeout` as a pure function from the
pending exception type and the traceback's offending call to the new alarm
value together with the action taken.
-/

namespace Ostf

/-- Row of the `test_runs` table. -/
structure TestRun where
  id : Nat
  cluster_id : Nat
  status : String
  meta : Option String
  started_at : Nat
  ended_at : Option Nat
  test_set_id : String
deriving DecidableEq, Repr

/-- Row of the `test_sets` table. -/
structure TestSet where
  id : String
  description : String
  test_path : String
  driver : String
  additional_arguments : List String
  cleanup_path : String
  meta : Option String
deriving DecidableEq, Repr

/-- Row of the `tests` table.  A row with `test_run_id = none` is a check
definition (template); a row with `test_run_id = some rid` is a check
result record of run `rid`. -/
structure Test where
  id : Nat
  name : String
  title : String
  description : String
  duration : String
  message : String
  traceback : String
  status : Option String
  step : Option Int
  time_taken : Option ℚ
  meta : Option String
  test_set_id : String
  test_run_id : Option Nat
deriving DecidableEq, Repr

/-- The persistent store: the three tables plus the autoincrement counters
for the two integer primary keys. -/
structure DB where
  test_runs : List TestRun
  tests : List Test
  next_run_id : Nat
  next_test_id : Nat
deriving DecidableEq, Repr

/-- The `metadata` dict passed to `TestRun.start`; the source only reads
its `cluster_id` key. -/
structure Metadata where
  cluster_id : Nat
deriving DecidableEq, Repr

/-- `TestRun.STATES` from the source. -/
def TestRun.STATES : List String := ["running", "finished"]

/-- `Test.STATES` from the source: the enum domain declared for the
`tests.status` column. -/
def Test.STATES : List String :=
  ["wait_running", "running", "failure", "success", "error", "stopped"]

/-- `TestRun.update(self, session, status)`: sets the run status and, when
the new status is `finished`, stamps `ended_at` with the current time. -/
def TestRun.update (r : TestRun) (status : String) (now : Nat) : TestRun :=
  { r with
      status := status
      ended_at := if status = "finished" then some now else r.ended_at }

/-- `TestRun.is_finished(self)`. -/
def TestRun.is_finished (r : TestRun) : Bool :=
  r.status == "finished"

/-- Accumulator loop realising `order_by(desc(id)).first()`: the row with
the greatest primary key among the candidates. -/
def lastByIdAux : Option TestRun → List TestRun → Option TestRun
  | acc, [] => acc
  | none, r :: rest => lastByIdAux (some r) rest
  | some a, r :: rest => lastByIdAux (some (if a.id < r.id then r else a)) rest

/-- `TestRun.get_last_test_run(cls, session, test_set, cluster_id)`:
the most recent (highest id) run for the pair, if any. -/
def TestRun.get_last_test_run (db : DB) (test_set : String) (cluster_id : Nat) :
    Option TestRun :=
  lastByIdAux none (db.test_runs.filter fun r =>
    r.cluster_id == cluster_id && r.test_set_id == test_set)

/-- `TestRun.is_last_running(cls, session, test_set, cluster_id)`:
`not bool(test_run) or test_run.is_finished()`. -/
def TestRun.is_last_running (db : DB) (test_set : String) (cluster_id : Nat) :
    Bool :=
  match TestRun.get_last_test_run db test_set cluster_id with
  | none => true
  | some r => r.is_finished

/-- `Test.copy_test(self, test_run, predefined_tests)`: copies every
non-primary-key column of the template into a fresh row (`new_id` is the
autoincrement key the insert will receive), ties it to the run, and picks
the initial status: `disabled` when a non-empty subset of enabled names was
supplied and this name is not in it, `wait_running` otherwise. -/
def Test.copy_test (t : Test) (test_run_id : Nat) (new_id : Nat)
    (predefined_tests : List String) : Test :=
  { t with
      id := new_id
      test_run_id := some test_run_id
      status := some (if predefined_tests ≠ [] ∧ t.name ∉ predefined_tests
                      then "disabled" else "wait_running") }

/-- The `for test in tests: session.add(test.copy_test(...))` loop of
`add_test_run`, with the autoincrement counter threaded through. -/
def cloneTests (test_run_id : Nat) (predefined_tests : List String) :
    Nat → List Test → List Test
  | _, [] => []
  | next_id, t :: rest =>
      t.copy_test test_run_id next_id predefined_tests ::
        cloneTests test_run_id predefined_tests (next_id + 1) rest

/-- `TestRun.add_test_run(cls, session, test_set, cluster_id, status,
tests)`: inserts a new run row and one clone of every check definition of
the suite (the Python `tests or []` collapses `None` and `[]`, so the
argument is modelled as a plain list).  `started_at` receives the
column default `datetime.utcnow`. -/
def TestRun.add_test_run (db : DB) (test_set : String) (cluster_id : Nat)
    (status : String) (tests : List String) (now : Nat) : DB × TestRun :=
  let predefined_tests := tests
  let templates := db.tests.filter fun t =>
    t.test_set_id == test_set && t.test_run_id == none
  let test_run : TestRun :=
    { id := db.next_run_id, cluster_id := cluster_id, status := status,
      meta := none, started_at := now, ended_at := none,
      test_set_id := test_set }
  let new_tests := cloneTests test_run.id predefined_tests db.next_test_id templates
  ({ db with
       test_runs := db.test_runs ++ [test_run]
       tests := db.tests ++ new_tests
       next_run_id := db.next_run_id + 1
       next_test_id := db.next_test_id + templates.length },
   test_run)

/-- `TestRun.start(cls, session, test_set, metadata, tests)`: gated by
`is_last_running`; on success inserts the new run (status `running`),
signals the external runner (no stored effect) and returns the snapshot;
on refusal returns `{}` (modelled `none`) leaving the store untouched. -/
def TestRun.start (db : DB) (test_set : TestSet) (metadata : Metadata)
    (tests : List String) (now : Nat) : DB × Option TestRun :=
  if TestRun.is_last_running db test_set.id metadata.cluster_id then
    let p := TestRun.add_test_run db test_set.id metadata.cluster_id
      "running" tests now
    (p.1, some p.2)
  else
    (db, none)

/-- `Test.update_running_tests(cls, session, test_run_id, status)`: bulk
update of every record of the run whose status is `running` or
`wait_running`. -/
def Test.update_running_tests (db : DB) (test_run_id : Nat) (status : String) :
    DB :=
  { db with
      tests := db.tests.map fun t =>
        if t.test_run_id == some test_run_id &&
            (t.status == some "running" || t.status == some "wait_running")
        then { t with status := some status }
        else t }

/-- `Test.update_test_run_tests(cls, session, test_run_id, tests_names,
status)`: bulk update of every record of the run whose name is in
`tests_names`. -/
def Test.update_test_run_tests (db : DB) (test_run_id : Nat)
    (tests_names : List String) (status : String) : DB :=
  { db with
      tests := db.tests.map fun t =>
        if tests_names.contains t.name && t.test_run_id == some test_run_id
        then { t with status := some status }
        else t }

/-- The `data` dict accepted by `Test.add_result`: a partial assignment of
the mutable result columns (a key that is absent leaves the column
untouched; a key that is present fully overwrites it). -/
structure TestUpdate where
  status : Option String := none
  message : Option String := none
  traceback : Option String := none
  duration : Option String := none
  step : Option Int := none
  time_taken : Option ℚ := none
deriving DecidableEq, Repr

/-- Application of an update dict to one row: exactly the supplied fields
are overwritten. -/
def applyUpdate (t : Test) (d : TestUpdate) : Test :=
  { t with
      status := match d.status with | some v => some v | none => t.status
      message := match d.message with | some v => v | none => t.message
      traceback := match d.traceback with | some v => v | none => t.traceback
      duration := match d.duration with | some v => v | none => t.duration
      step := match d.step with | some v => some v | none => t.step
      time_taken := match d.time_taken with
                    | some v => some v
                    | none => t.time_taken }

/-- `Test.add_result(cls, session, test_run_id, test_name, data)`: bulk
update keyed by `(test_run_id, name)`; zero matching rows is a silent
no-op. -/
def Test.add_result (db : DB) (test_run_id : Nat) (test_name : String)
    (data : TestUpdate) : DB :=
  { db with
      tests := db.tests.map fun t =>
        if t.name == test_name && t.test_run_id == some test_run_id
        then applyUpdate t data
        else t }

/-- `TestRun.restart(self, session, tests)`: gated by `is_last_running` on
the run's own pair; on success sets the run back to `running` (via
`update`), re-arms the named records when a non-empty list was given,
signals the runner and returns the snapshot; on refusal returns `{}`. -/
def TestRun.restart (db : DB) (r : TestRun) (tests : List String) (now : Nat) :
    DB × Option TestRun :=
  if TestRun.is_last_running db r.test_set_id r.cluster_id then
    let r2 := TestRun.update r "running" now
    let db2 := { db with
                   test_runs := db.test_runs.map fun x =>
                     if x.id = r.id then r2 else x }
    let db3 := if tests ≠ [] then
        Test.update_test_run_tests db2 r.id tests "wait_running"
      else db2
    (db3, some r2)
  else
    (db, none)

/-- `TestRun.stop(self, session)`: asks the runner to kill the run
(`killed` is the runner's boolean answer); when it confirms, bulk-marks the
in-flight records `stopped`; always returns the snapshot.  The run row
itself is never written. -/
def TestRun.stop (db : DB) (r : TestRun) (killed : Bool) : DB × TestRun :=
  if killed then
    (Test.update_running_tests db r.id "stopped", r)
  else
    (db, r)

/-- Spec-side notion used to check `get_last_test_run` against the spec's
words: the most recent run for a pair is a stored run of that pair whose
id is at least the id of every stored run of the pair. -/
def IsMostRecent (db : DB) (test_set : String) (cluster_id : Nat)
    (r : TestRun) : Prop :=
  r ∈ db.test_runs ∧ r.test_set_id = test_set ∧ r.cluster_id = cluster_id ∧
    ∀ x ∈ db.test_runs, x.test_set_id = test_set → x.cluster_id = cluster_id →
      x.id ≤ r.id

/-! ### Timing primitives of `fuel_health/test.py` -/

/-- The Python exception class pending when `__exit__` runs:
the guard's own `TimeOutError`, or any other class, identified by name. -/
inductive PyExc where
  | timeOutError
  | other (name : String)
deriving DecidableEq, Repr

/-- Observable outcome of `ExecutionTimeout.__exit__`: returning `False`
(so a pending exception propagates unchanged and a normal exit stays
normal), or raising an `AssertionError` with the given message. -/
inductive ExitAction where
  | passThrough
  | raiseError (msg : String)
deriving DecidableEq, Repr

/-- The message built by `__exit__` on timeout; the interpolated `call` is
the offending line extracted from the traceback. -/
def timeout_message (call : String) (timeout : Nat) : String :=
  "\n                " ++ call ++
    (" terminated with the timeout of " ++ toString timeout ++
      " seconds.\n                " ++
      "Please check that this service timeout meets your expectation.\n" ++
      "                ")

/-- `ExecutionTimeout.__enter__`: arms the process alarm with the budget;
the returned value is the alarm state after entry. -/
def ExecutionTimeout.enter (timeout : Nat) : Nat :=
  timeout

/-- `ExecutionTimeout.__exit__(self, exc_type, exc_val, exc_tb)`: first
disables the alarm (`signal.alarm(0)`; the first component is the alarm
state after exit), then returns `False` unless the pending exception is the
guard's own `TimeOutError`, in which case it raises an `AssertionError`
naming the call extracted from the traceback. -/
def ExecutionTimeout.exit (timeout : Nat) (exc_type : Option PyExc)
    (tb_call : String) : Nat × ExitAction :=
  (0,
   if exc_type ≠ some PyExc.timeOutError then
     ExitAction.passThrough
   else
     ExitAction.raiseError (timeout_message tb_call timeout))

/-- The `while now < timeout` loop of `call_until_true`, with the idealised
clock: before the k-th predicate call (0-based) the elapsed time is
`k * sleep_for`, so `now < timeout` reads `k * sleep_for < duration`.
`k` doubles as the count of predicate calls made so far and the returned
pair carries the final call count.  Fuel makes the recursion structural;
`none` marks fuel exhaustion (a diverging loop). -/
def call_until_true_aux (func : Nat → Bool) (duration sleep_for : ℚ) :
    Nat → Nat → Option (Bool × Nat)
  | 0, _ => none
  | fuel + 1, k =>
      if (k : ℚ) * sleep_for < duration then
        if func k then some (true, k + 1)
        else call_until_true_aux func duration sleep_for fuel (k + 1)
      else
        some (false, k)

/-- `call_until_true(func, duration, sleep_for)` under the idealised clock;
`func j` is the result of the j-th predicate invocation.  The supplied fuel
`Nat.ceil (duration / sleep_for) + 1` covers every iteration the loop can
perform when `sleep_for > 0`. -/
def call_until_true (func : Nat → Bool) (duration sleep_for : ℚ) :
    Option (Bool × Nat) :=
  call_until_true_aux func duration sleep_for
    (Nat.ceil (duration / sleep_for) + 1) 0

/-! ### Sample data used by concrete witnesses and counterexamples -/

/-- A `tests` row with the given key fields and defaults elsewhere. -/
def mkTest (id : Nat) (name : String) (test_set_id : String)
    (test_run_id : Option Nat) (status : Option String) : Test :=
  { id := id, name := name, title := "t", description := "d",
    duration := "1m", message := "", traceback := "", status := status,
    step := none, time_taken := none, meta := none,
    test_set_id := test_set_id, test_run_id := test_run_id }

/-- A `test_runs` row with the given key fields. -/
def mkRun (id : Nat) (cluster_id : Nat) (status : String)
    (ended_at : Option Nat) (test_set_id : String) : TestRun :=
  { id := id, cluster_id := cluster_id, status := status, meta := none,
    started_at := 0, ended_at := ended_at, test_set_id := test_set_id }

/-- The `smoke` suite used by concrete scenarios. -/
def smokeSet : TestSet :=
  { id := "smoke", description := "smoke suite", test_path := "p",
    driver := "nose", additional_arguments := [], cleanup_path := "c",
    meta := none }

/-- Finished run 7 of Scenario C. -/
def run7 : TestRun := mkRun 7 1 "finished" (some 5) "smoke"

/-- Store of Scenario C: finished run 7 with `net = success` and
`disk = failure`, plus the two templates. -/
def dbScenC : DB :=
  { test_runs := [run7]
    tests := [mkTest 1 "net" "smoke" none none,
              mkTest 2 "disk" "smoke" none none,
              mkTest 3 "net" "smoke" (some 7) (some "success"),
              mkTest 4 "disk" "smoke" (some 7) (some "failure")]
    next_run_id := 8
    next_test_id := 5 }

/-- Run 9 of Scenario B, still running. -/
def run9 : TestRun := mkRun 9 1 "running" none "smoke"

/-- Store of Scenario B: run 9 with `net = running` and
`disk = wait_running`. -/
def dbScenB : DB :=
  { test_runs := [run9]
    tests := [mkTest 1 "net" "smoke" none none,
              mkTest 2 "disk" "smoke" none none,
              mkTest 3 "net" "smoke" (some 9) (some "running"),
              mkTest 4 "disk" "smoke" (some 9) (some "wait_running")]
    next_run_id := 10
    next_test_id := 5 }

/-- Store with only the two `smoke` templates and no runs. -/
def dbTemplatesOnly : DB :=
  { test_runs := []
    tests := [mkTest 1 "net" "smoke" none none,
              mkTest 2 "disk" "smoke" none none]
    next_run_id := 1
    next_test_id := 3 }

end Ostf

namespace Ostf

/-! ### Helper lemmas -/

/-- A map that fixes every member of a list is the identity on it. -/
theorem map_id_of_mem {α : Type} (l : List α) (f : α → α)
    (h : ∀ x ∈ l, f x = x) : l.map f = l := by
  induction l with
  | nil => rfl
  | cons x xs ih =>
      simp only [List.map_cons, h x (by simp), List.cons.injEq, true_and]
      exact ih fun y hy => h y (by simp [hy])

/-- The loop guard of `call_until_true` at the k-th call, for a positive
sleep interval: the elapsed time is below the budget exactly when `k` is
below `Nat.ceil (duration / sleep_for)`. -/
theorem call_aux_guard_iff (d s : ℚ) (hs : 0 < s) (k : Nat) :
    ((k : ℚ) * s < d) ↔ k < Nat.ceil (d / s) := by
  rw [Nat.lt_ceil, lt_div_iff₀ hs]

/-- If the predicate is false before call `k`, true at call `k`, and the
guard still passes at call `k`, the loop returns successfully with `k + 1`
calls made, from any start index at or before `k`, given enough fuel. -/
theorem call_aux_first_true (func : Nat → Bool) (d s : ℚ) (k : Nat)
    (hs : 0 < s) (hk : ∀ j, j < k → func j = false) (ht : func k = true)
    (hin : (k : ℚ) * s < d) :
    ∀ fuel k0, k0 ≤ k → k - k0 < fuel →
      call_until_true_aux func d s fuel k0 = some (true, k + 1) := by
  intro fuel
  induction fuel with
  | zero => intro k0 _ h; omega
  | succ fuel ih =>
      intro k0 hk0 hfuel
      have hguard : (k0 : ℚ) * s < d := by
        calc (k0 : ℚ) * s ≤ (k : ℚ) * s := by
              apply mul_le_mul_of_nonneg_right _ (le_of_lt hs)
              exact_mod_cast hk0
          _ < d := hin
      rcases eq_or_lt_of_le hk0 with rfl | hlt
      · simp [call_until_true_aux, hguard, ht]
      · have hf : func k0 = false := hk k0 hlt
        simp only [call_until_true_aux, hguard, if_true, hf,
          Bool.false_eq_true, if_false, if_pos]
        exact ih (k0 + 1) hlt (by omega)

/-- If the predicate is false at every call the guard admits, the loop
fails after exactly `Nat.ceil (duration / sleep_for)` calls, from any
start index in range, given enough fuel. -/
theorem call_aux_all_false (func : Nat → Bool) (d s : ℚ) (hs : 0 < s)
    (hall : ∀ j : Nat, (j : ℚ) * s < d → func j = false) :
    ∀ fuel k0, k0 ≤ Nat.ceil (d / s) → Nat.ceil (d / s) - k0 < fuel →
      call_until_true_aux func d s fuel k0 = some (false, Nat.ceil (d / s)) := by
  intro fuel
  induction fuel with
  | zero => intro k0 _ h; omega
  | succ fuel ih =>
      intro k0 hk0 hfuel
      by_cases hlt : k0 < Nat.ceil (d / s)
      · have hguard : (k0 : ℚ) * s < d := (call_aux_guard_iff d s hs k0).mpr hlt
        have hf : func k0 = false := hall k0 hguard
        simp only [call_until_true_aux, hguard, if_true, hf,
          Bool.false_eq_true, if_false, if_pos]
        exact ih (k0 + 1) hlt (by omega)
      · have hguard : ¬ ((k0 : ℚ) * s < d) := by
          rw [call_aux_guard_iff d s hs k0]; exact hlt
        have hk0e : k0 = Nat.ceil (d / s) := le_antisymm hk0 (not_lt.mp hlt)
        subst hk0e
        simp [call_until_true_aux, hguard]

end Ostf

namespace Ostf

/-! ### Claim theorems -/

/-- C8: `call_until_true` returns true immediately upon the first predicate
invocation that returns true (having made exactly that many calls), and
returns false once the elapsed time meets or exceeds the duration budget,
without invoking the predicate again — the failing loop makes exactly
`Nat.ceil (duration / sleep_for)` calls, one for each instant the guard
admits, e.g. a predicate true on its 3rd call with interval 1 and budget 10
yields success after exactly 3 calls. -/
theorem c8_poller_correct (func : Nat → Bool) (duration sleep_for : ℚ)
    (k : Nat) (hs : 0 < sleep_for) (hk : ∀ j, j < k → func j = false) :
    (func k = true → (k : ℚ) * sleep_for < duration →
      call_until_true func duration sleep_for = some (true, k + 1)) ∧
    ((∀ j : Nat, (j : ℚ) * sleep_for < duration → func j = false) →
      call_until_true func duration sleep_for =
        some (false, Nat.ceil (duration / sleep_for))) := by
  constructor
  · intro ht hin
    have hlt : k < Nat.ceil (duration / sleep_for) :=
      (call_aux_guard_iff duration sleep_for hs k).mp hin
    exact call_aux_first_true func duration sleep_for k hs hk ht hin
      (Nat.ceil (duration / sleep_for) + 1) 0 (Nat.zero_le k) (by omega)
  · intro hall
    exact call_aux_all_false func duration sleep_for hs hall
      (Nat.ceil (duration / sleep_for) + 1) 0 (Nat.zero_le _) (by omega)

/-- C8 witness: Scenario D — predicate true on its 3rd call (index 2),
interval 1, budget 10: success after exactly 3 calls. -/
theorem c8_witness :
    (0 : ℚ) < 1 ∧ (∀ j, j < 2 → (j == 2) = false) ∧
    call_until_true (fun j => j == 2) 10 1 = some (true, 3) :=
  ⟨by norm_num, by decide,
   (c8_poller_correct (fun j => j == 2) 10 1 2 (by norm_num) (by decide)).1
     (by decide) (by norm_num)⟩

/-- C10: with a duration budget at or below zero the loop guard fails
before the first predicate invocation, so `call_until_true` returns false
having made zero predicate calls, for every predicate and every sleep
interval. -/
theorem c10_nonpositive_duration (func : Nat → Bool) (duration sleep_for : ℚ)
    (hd : duration ≤ 0) :
    call_until_true func duration sleep_for = some (false, 0) := by
  have hguard : ¬ ((0 : ℚ) * sleep_for < duration) := by
    rw [zero_mul]
    exact fun h => absurd hd (not_le.mpr h)
  simp only [call_until_true, call_until_true_aux, Nat.cast_zero]
  rw [if_neg hguard]

/-- C10 witness: a predicate that is always true is never consulted when
the budget is zero. -/
theorem c10_witness :
    (0 : ℚ) ≤ 0 ∧ call_until_true (fun _ => true) 0 1 = some (false, 0) :=
  ⟨le_refl 0, c10_nonpositive_duration (fun _ => true) 0 1 (le_refl 0)⟩

/-- C9: `ExecutionTimeout.__exit__` disarms the alarm on every exit path
(the resulting alarm value is 0 whatever the pending exception), lets any
exception other than the internal `TimeOutError` — and a normal exit —
propagate unchanged, and on the internal timeout signal raises a
descriptive error whose message names the call that was in flight. -/
theorem c9_timeout_guard (timeout : Nat) (exc_type : Option PyExc)
    (tb_call : String) :
    (ExecutionTimeout.exit timeout exc_type tb_call).1 = 0 ∧
    (exc_type ≠ some PyExc.timeOutError →
      (ExecutionTimeout.exit timeout exc_type tb_call).2 =
        ExitAction.passThrough) ∧
    (exc_type = some PyExc.timeOutError →
      ∃ pre post, (ExecutionTimeout.exit timeout exc_type tb_call).2 =
        ExitAction.raiseError (pre ++ tb_call ++ post)) := by
  refine ⟨rfl, fun h => ?_, fun h => ?_⟩
  · simp [ExecutionTimeout.exit, h]
  · refine ⟨"\n                ",
      " terminated with the timeout of " ++ toString timeout ++
        " seconds.\n                " ++
        "Please check that this service timeout meets your expectation.\n" ++
        "                ", ?_⟩
    simp [ExecutionTimeout.exit, h, timeout_message]

/-- C9 witness: a pending `ValueError` is passed through unchanged, and the
alarm is disarmed. -/
theorem c9_witness :
    some (PyExc.other "ValueError") ≠ some PyExc.timeOutError ∧
    (ExecutionTimeout.exit 1 (some (PyExc.other "ValueError")) "sleep(5)").2 =
      ExitAction.passThrough ∧
    (ExecutionTimeout.exit 1 (some (PyExc.other "ValueError")) "sleep(5)").1 = 0 :=
  ⟨by decide,
   (c9_timeout_guard 1 (some (PyExc.other "ValueError")) "sleep(5)").2.1
     (by decide),
   (c9_timeout_guard 1 (some (PyExc.other "ValueError")) "sleep(5)").1⟩

/-- C4 (code bug): the clone step assigns status `disabled` to a record
whose name is outside a non-empty enabled subset, yet `disabled` is not a
member of the declared status domain `Test.STATES` (which lists only six
values); the other statuses the lifecycle assigns are members. -/
theorem c4_disabled_outside_declared_states :
    (Test.copy_test (mkTest 1 "net" "smoke" none none) 1 10 ["disk"]).status
      = some "disabled" ∧
    "disabled" ∉ Test.STATES ∧
    "wait_running" ∈ Test.STATES ∧ "running" ∈ Test.STATES ∧
    "stopped" ∈ Test.STATES := by
  decide

/-- C1 (amended): `update` stamps `ended_at` exactly when the new status is
`finished` and never clears it; a run created by `start` has status
`running` and no `ended_at`; and `restart` on a run whose pair is inactive
transitions the run back to `running` but leaves `ended_at` unchanged, so
the "set iff finished" invariant does not survive restarting a finished
run. -/
theorem c1_finish_invariant_amended (db : DB) (r : TestRun)
    (tests : List String) (now : Nat)
    (hlast : TestRun.is_last_running db r.test_set_id r.cluster_id = true) :
    (TestRun.restart db r tests now).2 = some { r with status := "running" } ∧
    (∀ s n, (TestRun.update r s n).ended_at =
      if s = "finished" then some n else r.ended_at) ∧
    (∀ ts md tl n db2 run, TestRun.start db ts md tl n = (db2, some run) →
      run.status = "running" ∧ run.ended_at = none) := by
  refine ⟨?_, fun s n => rfl, ?_⟩
  · simp [TestRun.restart, hlast, TestRun.update]
  · intro ts md tl n db2 run h
    by_cases hg : TestRun.is_last_running db ts.id md.cluster_id
    · simp only [TestRun.start, hg, if_true, Prod.mk.injEq,
        Option.some.injEq] at h
      rw [← h.2]
      exact ⟨rfl, rfl⟩
    · simp [TestRun.start, hg] at h

/-- C1 counterexample: restarting finished run 7 (Scenario C store) yields
status `running` with `ended_at` still set to its old value 5, refuting
both "restart clears `ended_at`" and the invariant "ended_at is set iff
status is finished" after that operation. -/
theorem c1_counterexample :
    run7.status = "finished" ∧ run7.ended_at = some 5 ∧
    (TestRun.restart dbScenC run7 [] 9).2.map TestRun.status = some "running" ∧
    (TestRun.restart dbScenC run7 [] 9).2.map TestRun.ended_at =
      some (some 5) := by
  decide

/-- C1 witness: the amended statement applied to the Scenario C store. -/
theorem c1_witness :
    TestRun.is_last_running dbScenC "smoke" 1 = true ∧
    (TestRun.restart dbScenC run7 ["disk"] 9).2 =
      some { run7 with status := "running" } :=
  ⟨by decide, (c1_finish_invariant_amended dbScenC run7 ["disk"] 9 (by decide)).1⟩

end Ostf

namespace Ostf

/-- C5: `stop` returns the run snapshot regardless of whether the runner
confirmed; when the runner does not confirm the store is untouched; when it
does, the run rows are untouched (run-level status unchanged) and, record
by record, exactly those records of this run currently `running` or
`wait_running` become `stopped` while every other record — including any
already `success`, `failure`, `error` or `disabled`, and every record of
other runs — is unchanged. -/
theorem c5_stop_scoping (db : DB) (r : TestRun) (killed : Bool) :
    (TestRun.stop db r killed).2 = r ∧
    (killed = false → (TestRun.stop db r killed).1 = db) ∧
    (killed = true →
      (TestRun.stop db r killed).1.test_runs = db.test_runs ∧
      List.Forall₂ (fun t t2 =>
          (t.test_run_id = some r.id ∧
              (t.status = some "running" ∨ t.status = some "wait_running") →
            t2 = { t with status := some "stopped" }) ∧
          (¬ (t.test_run_id = some r.id ∧
              (t.status = some "running" ∨ t.status = some "wait_running")) →
            t2 = t))
        db.tests (TestRun.stop db r killed).1.tests) := by
  refine ⟨?_, fun h => ?_, fun h => ?_⟩
  · cases killed <;> rfl
  · subst h; rfl
  · subst h
    refine ⟨rfl, ?_⟩
    show List.Forall₂ _ db.tests
      ((Test.update_running_tests db r.id "stopped").tests)
    have hiff : ∀ t : Test,
        ((t.test_run_id == some r.id &&
          (t.status == some "running" || t.status == some "wait_running")) = true) ↔
        (t.test_run_id = some r.id ∧
          (t.status = some "running" ∨ t.status = some "wait_running")) := by
      intro t
      simp [Bool.and_eq_true, Bool.or_eq_true, beq_iff_eq]
    rw [Test.update_running_tests]
    rw [List.forall₂_map_right_iff, List.forall₂_same]
    intro t ht
    cases hb : (t.test_run_id == some r.id &&
        (t.status == some "running" || t.status == some "wait_running")) with
    | true =>
        exact ⟨fun _ => by simp [hb], fun hn => absurd ((hiff t).mp hb) hn⟩
    | false =>
        refine ⟨fun hc => ?_, fun _ => by simp [hb]⟩
        rw [(hiff t).mpr hc] at hb
        exact absurd hb (by simp)

/-- C5 witness: Scenario B — run 9 with `net = running`,
`disk = wait_running`, runner confirms: both records become `stopped`. -/
theorem c5_witness :
    List.Forall₂ (fun t t2 =>
        (t.test_run_id = some run9.id ∧
            (t.status = some "running" ∨ t.status = some "wait_running") →
          t2 = { t with status := some "stopped" }) ∧
        (¬ (t.test_run_id = some run9.id ∧
            (t.status = some "running" ∨ t.status = some "wait_running")) →
          t2 = t))
      dbScenB.tests (TestRun.stop dbScenB run9 true).1.tests :=
  ((c5_stop_scoping dbScenB run9 true).2.2 rfl).2

/-- C6: on a run whose (suite, target) pair is inactive, `restart(names)`
sets, record by record, exactly the records of that run whose name is in
`names` to `wait_running`, while every record not of this run or not named
retains its prior status. -/
theorem c6_restart_rearm (db : DB) (r : TestRun) (names : List String)
    (now : Nat)
    (hlast : TestRun.is_last_running db r.test_set_id r.cluster_id = true) :
    List.Forall₂ (fun t t2 =>
        (t.test_run_id = some r.id ∧ t.name ∈ names →
          t2 = { t with status := some "wait_running" }) ∧
        (¬ (t.test_run_id = some r.id ∧ t.name ∈ names) → t2 = t))
      db.tests (TestRun.restart db r names now).1.tests := by
  by_cases hn : names = []
  · subst hn
    have htests : (TestRun.restart db r [] now).1.tests = db.tests := by
      rw [TestRun.restart, if_pos hlast]
      rfl
    rw [htests, List.forall₂_same]
    intro t ht
    exact ⟨fun hc => absurd hc.2 (List.not_mem_nil t.name), fun _ => rfl⟩
  · have htests : (TestRun.restart db r names now).1.tests =
        db.tests.map (fun t =>
          if (names.contains t.name && t.test_run_id == some r.id) = true then
            { t with status := some "wait_running" } else t) := by
      rw [TestRun.restart, if_pos hlast]
      show (if names ≠ [] then
          Test.update_test_run_tests
            { db with test_runs := db.test_runs.map fun x =>
                if x.id = r.id then TestRun.update r "running" now else x }
            r.id names "wait_running"
        else
          { db with test_runs := db.test_runs.map fun x =>
              if x.id = r.id then TestRun.update r "running" now else x }).tests
        = _
      rw [if_pos hn]
      rfl
    have hiff : ∀ t : Test,
        ((names.contains t.name && t.test_run_id == some r.id) = true) ↔
        (t.test_run_id = some r.id ∧ t.name ∈ names) := by
      intro t
      simp [List.contains, Bool.and_eq_true, beq_iff_eq, List.elem_iff,
        and_comm]
    rw [htests, List.forall₂_map_right_iff, List.forall₂_same]
    intro t ht
    cases hb : (names.contains t.name && t.test_run_id == some r.id) with
    | true =>
        exact ⟨fun _ => by simp [hb], fun hn2 => absurd ((hiff t).mp hb) hn2⟩
    | false =>
        refine ⟨fun hc => ?_, fun _ => by simp [hb]⟩
        rw [(hiff t).mpr hc] at hb
        exact absurd hb (by simp)

/-- C6 witness: Scenario C — finished run 7 with `net = success`,
`disk = failure`; `restart(names = [disk])` re-arms exactly `disk`. -/
theorem c6_witness :
    TestRun.is_last_running dbScenC "smoke" 1 = true ∧
    List.Forall₂ (fun t t2 =>
        (t.test_run_id = some run7.id ∧ t.name ∈ ["disk"] →
          t2 = { t with status := some "wait_running" }) ∧
        (¬ (t.test_run_id = some run7.id ∧ t.name ∈ ["disk"]) → t2 = t))
      dbScenC.tests (TestRun.restart dbScenC run7 ["disk"] 9).1.tests :=
  ⟨by decide, c6_restart_rearm dbScenC run7 ["disk"] 9 (by decide)⟩

/-- C7: `add_result` on a (run, name) key matching no record is a silent
no-op leaving the whole store unchanged (it is a total function, not an
error), and in general it overwrites, record by record, exactly the
supplied fields of exactly the matching records, leaving all others
unchanged (last-write-wins). -/
theorem c7_add_result (db : DB) (test_run_id : Nat) (test_name : String)
    (data : TestUpdate) :
    ((∀ t ∈ db.tests, ¬ (t.name = test_name ∧ t.test_run_id = some test_run_id)) →
      Test.add_result db test_run_id test_name data = db) ∧
    List.Forall₂ (fun t t2 =>
        (t.name = test_name ∧ t.test_run_id = some test_run_id →
          t2 = applyUpdate t data) ∧
        (¬ (t.name = test_name ∧ t.test_run_id = some test_run_id) → t2 = t))
      db.tests (Test.add_result db test_run_id test_name data).tests := by
  have hiff : ∀ t : Test,
      ((t.name == test_name && t.test_run_id == some test_run_id) = true) ↔
      (t.name = test_name ∧ t.test_run_id = some test_run_id) := by
    intro t
    simp [Bool.and_eq_true, beq_iff_eq]
  constructor
  · intro hno
    have hmap : db.tests.map (fun t =>
        if (t.name == test_name && t.test_run_id == some test_run_id) = true then
          applyUpdate t data else t) = db.tests := by
      apply map_id_of_mem
      intro t ht
      cases hb : (t.name == test_name && t.test_run_id == some test_run_id) with
      | true => exact absurd ((hiff t).mp hb) (hno t ht)
      | false => simp [hb]
    show { db with tests := db.tests.map (fun t =>
        if (t.name == test_name && t.test_run_id == some test_run_id) = true then
          applyUpdate t data else t) } = db
    rw [hmap]
  · show List.Forall₂ _ db.tests (db.tests.map (fun t =>
        if (t.name == test_name && t.test_run_id == some test_run_id) = true then
          applyUpdate t data else t))
    rw [List.forall₂_map_right_iff, List.forall₂_same]
    intro t ht
    cases hb : (t.name == test_name && t.test_run_id == some test_run_id) with
    | true =>
        exact ⟨fun _ => by simp [hb], fun hn => absurd ((hiff t).mp hb) hn⟩
    | false =>
        refine ⟨fun hc => ?_, fun _ => by simp [hb]⟩
        rw [(hiff t).mpr hc] at hb
        exact absurd hb (by simp)

/-- C7 witness: ingesting a result for the unknown check `cpu` of run 7
leaves the Scenario C store untouched. -/
theorem c7_witness :
    Test.add_result dbScenC 7 "cpu" { status := some "success" } = dbScenC :=
  (c7_add_result dbScenC 7 "cpu" { status := some "success" }).1 (by decide)

end Ostf

namespace Ostf

/-- The argmax accumulator never comes back empty once seeded. -/
theorem lastByIdAux_some_ne_none (l : List TestRun) :
    ∀ a : TestRun, lastByIdAux (some a) l ≠ none := by
  induction l with
  | nil => intro a h; exact Option.noConfusion h
  | cons r rest ih => intro a h; exact ih (if a.id < r.id then r else a) h

/-- The argmax result is the seed or a member of the list. -/
theorem lastByIdAux_mem (l : List TestRun) :
    ∀ (acc : Option TestRun) (r : TestRun), lastByIdAux acc l = some r →
      acc = some r ∨ r ∈ l := by
  induction l with
  | nil =>
      intro acc r h
      simp only [lastByIdAux] at h
      exact Or.inl h
  | cons x rest ih =>
      intro acc r h
      cases acc with
      | none =>
          rcases ih (some x) r h with h1 | h1
          · injection h1 with h2
            exact Or.inr (h2 ▸ List.mem_cons_self x rest)
          · exact Or.inr (List.mem_cons_of_mem x h1)
      | some a =>
          rcases ih (some (if a.id < x.id then x else a)) r h with h1 | h1
          · by_cases hx : a.id < x.id
            · rw [if_pos hx] at h1
              injection h1 with h2
              exact Or.inr (h2 ▸ List.mem_cons_self x rest)
            · rw [if_neg hx] at h1
              exact Or.inl h1
          · exact Or.inr (List.mem_cons_of_mem x h1)

/-- The argmax result has an id at least that of the seed. -/
theorem lastByIdAux_acc_le (l : List TestRun) :
    ∀ (a r : TestRun), lastByIdAux (some a) l = some r → a.id ≤ r.id := by
  induction l with
  | nil =>
      intro a r h
      simp only [lastByIdAux] at h
      injection h with h2
      exact h2 ▸ le_refl a.id
  | cons x rest ih =>
      intro a r h
      have h2 := ih (if a.id < x.id then x else a) r h
      by_cases hx : a.id < x.id
      · rw [if_pos hx] at h2
        exact le_trans (le_of_lt hx) h2
      · rw [if_neg hx] at h2
        exact h2

/-- The argmax result has an id at least that of every list member. -/
theorem lastByIdAux_all_le (l : List TestRun) :
    ∀ (acc : Option TestRun) (r : TestRun), lastByIdAux acc l = some r →
      ∀ x ∈ l, x.id ≤ r.id := by
  induction l with
  | nil => intro acc r _ x hx; exact absurd hx (List.not_mem_nil x)
  | cons y rest ih =>
      intro acc r h x hx
      rcases List.mem_cons.mp hx with rfl | hx2
      · cases acc with
        | none => exact lastByIdAux_acc_le rest x r h
        | some a =>
            have h2 := lastByIdAux_acc_le rest (if a.id < x.id then x else a) r h
            by_cases hy : a.id < x.id
            · rw [if_pos hy] at h2
              exact h2
            · rw [if_neg hy] at h2
              exact le_trans (not_lt.mp hy) h2
      · cases acc with
        | none => exact ih (some y) r h x hx2
        | some a => exact ih (some (if a.id < y.id then y else a)) r h x hx2

/-- When the query returns a row, that row belongs to the pair and carries
the greatest id among the pair's rows. -/
theorem get_last_test_run_spec (db : DB) (ts : String) (cid : Nat)
    (r : TestRun) (h : TestRun.get_last_test_run db ts cid = some r) :
    r ∈ db.test_runs ∧ r.cluster_id = cid ∧ r.test_set_id = ts ∧
      ∀ x ∈ db.test_runs, x.cluster_id = cid → x.test_set_id = ts →
        x.id ≤ r.id := by
  rcases lastByIdAux_mem _ none r h with h1 | h1
  · exact Option.noConfusion h1
  · have hf := List.mem_filter.mp h1
    have hp : r.cluster_id = cid ∧ r.test_set_id = ts := by
      have h2 := hf.2
      simp only [Bool.and_eq_true, beq_iff_eq] at h2
      exact h2
    refine ⟨hf.1, hp.1, hp.2, ?_⟩
    intro x hx hc hts
    apply lastByIdAux_all_le _ none r h
    exact List.mem_filter.mpr ⟨hx, by simp [hc, hts]⟩

/-- When the query returns nothing, no stored run belongs to the pair. -/
theorem get_last_test_run_none (db : DB) (ts : String) (cid : Nat)
    (h : TestRun.get_last_test_run db ts cid = none) :
    ∀ x ∈ db.test_runs, ¬ (x.test_set_id = ts ∧ x.cluster_id = cid) := by
  intro x hx hc
  have hxf : x ∈ db.test_runs.filter
      (fun r => r.cluster_id == cid && r.test_set_id == ts) :=
    List.mem_filter.mpr ⟨hx, by simp [hc.1, hc.2]⟩
  rcases hl : db.test_runs.filter
      (fun r => r.cluster_id == cid && r.test_set_id == ts) with _ | ⟨y, l⟩
  · rw [hl] at hxf
    exact absurd hxf (List.not_mem_nil x)
  · unfold TestRun.get_last_test_run at h
    rw [hl] at h
    exact lastByIdAux_some_ne_none l y h

/-- A stored run of the pair forces the query to find something. -/
theorem get_last_test_run_isSome (db : DB) (ts : String) (cid : Nat)
    (x : TestRun) (hx : x ∈ db.test_runs) (hts : x.test_set_id = ts)
    (hc : x.cluster_id = cid) :
    ∃ r, TestRun.get_last_test_run db ts cid = some r := by
  rcases hg : TestRun.get_last_test_run db ts cid with _ | r
  · exact absurd ⟨hts, hc⟩ (get_last_test_run_none db ts cid hg x hx)
  · exact ⟨r, rfl⟩

/-- Reduction of the gate when the query finds a row. -/
theorem is_last_running_eq_some (db : DB) (ts : String) (cid : Nat)
    (r : TestRun) (hg : TestRun.get_last_test_run db ts cid = some r) :
    TestRun.is_last_running db ts cid = r.is_finished := by
  unfold TestRun.is_last_running
  rw [hg]

/-- Reduction of the gate when the query finds nothing. -/
theorem is_last_running_eq_none (db : DB) (ts : String) (cid : Nat)
    (hg : TestRun.get_last_test_run db ts cid = none) :
    TestRun.is_last_running db ts cid = true := by
  unfold TestRun.is_last_running
  rw [hg]

end Ostf

namespace Ostf

/-- C2: with distinct run ids, (i) `start` returns the empty no-op result —
store unchanged, no exception — whenever a most recent run for the
(suite, target) pair exists and is not `finished`; (ii) the gating
predicate `is_last_running` holds iff no run exists for the pair or some
most recent run of the pair is `finished`; (iii) when the gate holds,
`start` creates a run with status `running` and returns its snapshot. -/
theorem c2_start_gating (db : DB) (ts : TestSet) (md : Metadata)
    (tests : List String) (now : Nat)
    (hnodup : (db.test_runs.map TestRun.id).Nodup) :
    (∀ r, IsMostRecent db ts.id md.cluster_id r → r.status ≠ "finished" →
      TestRun.start db ts md tests now = (db, none)) ∧
    (TestRun.is_last_running db ts.id md.cluster_id = true ↔
      ((∀ x ∈ db.test_runs,
          ¬ (x.test_set_id = ts.id ∧ x.cluster_id = md.cluster_id)) ∨
       (∃ r, IsMostRecent db ts.id md.cluster_id r ∧
          r.status = "finished"))) ∧
    (TestRun.is_last_running db ts.id md.cluster_id = true →
      ∃ db2 run, TestRun.start db ts md tests now = (db2, some run) ∧
        run.status = "running") := by
  have hinj : ∀ x ∈ db.test_runs, ∀ y ∈ db.test_runs, x.id = y.id → x = y :=
    fun x hx y hy hxy => List.inj_on_of_nodup_map hnodup hx hy hxy
  have hiff : TestRun.is_last_running db ts.id md.cluster_id = true ↔
      ((∀ x ∈ db.test_runs,
          ¬ (x.test_set_id = ts.id ∧ x.cluster_id = md.cluster_id)) ∨
       (∃ r, IsMostRecent db ts.id md.cluster_id r ∧
          r.status = "finished")) := by
    constructor
    · intro h
      rcases hg : TestRun.get_last_test_run db ts.id md.cluster_id with _ | r
      · exact Or.inl (get_last_test_run_none db ts.id md.cluster_id hg)
      · right
        have hs := get_last_test_run_spec db ts.id md.cluster_id r hg
        have hfin : r.status = "finished" := by
          rw [is_last_running_eq_some db ts.id md.cluster_id r hg] at h
          simpa [TestRun.is_finished] using h
        exact ⟨r, ⟨hs.1, hs.2.2.1, hs.2.1, fun x hx h1 h2 =>
          hs.2.2.2 x hx h2 h1⟩, hfin⟩
    · intro h
      rcases h with h | ⟨r, hmr, hfin⟩
      · rcases hg : TestRun.get_last_test_run db ts.id md.cluster_id with _ | c
        · exact is_last_running_eq_none db ts.id md.cluster_id hg
        · have hs := get_last_test_run_spec db ts.id md.cluster_id c hg
          exact absurd ⟨hs.2.2.1, hs.2.1⟩ (h c hs.1)
      · rcases get_last_test_run_isSome db ts.id md.cluster_id r hmr.1
          hmr.2.1 hmr.2.2.1 with ⟨c, hg⟩
        have hs := get_last_test_run_spec db ts.id md.cluster_id c hg
        have hcr : c = r :=
          hinj c hs.1 r hmr.1
            (le_antisymm (hmr.2.2.2 c hs.1 hs.2.2.1 hs.2.1)
              (hs.2.2.2 r hmr.1 hmr.2.2.1 hmr.2.1))
        rw [is_last_running_eq_some db ts.id md.cluster_id c hg, hcr]
        simp [TestRun.is_finished, hfin]
  refine ⟨?_, hiff, ?_⟩
  · intro r hmr hnf
    have hfalse : ¬ (TestRun.is_last_running db ts.id md.cluster_id = true) := by
      intro hb
      rcases hiff.mp hb with h | ⟨r2, hmr2, hfin2⟩
      · exact absurd ⟨hmr.2.1, hmr.2.2.1⟩ (h r hmr.1)
      · have h21 : r2 = r :=
          hinj r2 hmr2.1 r hmr.1
            (le_antisymm (hmr.2.2.2 r2 hmr2.1 hmr2.2.1 hmr2.2.2.1)
              (hmr2.2.2.2 r hmr.1 hmr.2.1 hmr.2.2.1))
        exact absurd (h21 ▸ hfin2) hnf
    rw [TestRun.start, if_neg hfalse]
  · intro h
    refine ⟨(TestRun.add_test_run db ts.id md.cluster_id "running" tests now).1,
            (TestRun.add_test_run db ts.id md.cluster_id "running" tests now).2,
            by rw [TestRun.start, if_pos h], rfl⟩

/-- C2 witness: Scenario A's first step — no prior run, so the gate holds
and `start` creates a running run. -/
theorem c2_witness :
    (dbTemplatesOnly.test_runs.map TestRun.id).Nodup ∧
    TestRun.is_last_running dbTemplatesOnly "smoke" 1 = true ∧
    (∃ db2 run,
      TestRun.start dbTemplatesOnly smokeSet ⟨1⟩ [] 0 = (db2, some run) ∧
      run.status = "running") :=
  ⟨by decide, by decide,
   (c2_start_gating dbTemplatesOnly smokeSet ⟨1⟩ [] 0 (by decide)).2.2
     (by decide)⟩

end Ostf

namespace Ostf

/-- Every cloned record is tied to the new run. -/
theorem cloneTests_run_id (rid : Nat) (pre : List String) :
    ∀ (nid : Nat) (l : List Test) (t : Test), t ∈ cloneTests rid pre nid l →
      t.test_run_id = some rid := by
  intro nid l
  induction l generalizing nid with
  | nil => intro t ht; exact absurd ht (List.not_mem_nil t)
  | cons x rest ih =>
      intro t ht
      rcases List.mem_cons.mp ht with rfl | ht2
      · rfl
      · exact ih (nid + 1) t ht2

/-- Names and statuses of the clones, template by template: the name is
kept and the status follows the enabled-subset rule of `copy_test`. -/
theorem cloneTests_map_name_status (rid : Nat) (pre : List String) :
    ∀ (nid : Nat) (l : List Test),
      (cloneTests rid pre nid l).map (fun t => (t.name, t.status)) =
        l.map (fun t => (t.name,
          some (if pre ≠ [] ∧ t.name ∉ pre then "disabled"
                else "wait_running"))) := by
  intro nid l
  induction l generalizing nid with
  | nil => rfl
  | cons x rest ih =>
      simp only [cloneTests, List.map_cons, ih (nid + 1)]
      rfl

/-- Filtering the clones by the new run id keeps all of them. -/
theorem cloneTests_filter_self (rid : Nat) (pre : List String) (nid : Nat)
    (l : List Test) :
    (cloneTests rid pre nid l).filter (fun t => t.test_run_id == some rid) =
      cloneTests rid pre nid l := by
  rw [List.filter_eq_self]
  intro t ht
  simp [cloneTests_run_id rid pre nid l t ht]

/-- C3: when the gate holds and the new run id is fresh, `start` yields a
run whose attached records correspond one-to-one (same names, same order)
to the check definitions of the suite; with no enabled subset every record
starts `wait_running`, and with a non-empty subset exactly the named
records start `wait_running` while the rest start `disabled`. -/
theorem c3_clone_correctness (db : DB) (ts : TestSet) (md : Metadata)
    (tests : List String) (now : Nat)
    (hgate : TestRun.is_last_running db ts.id md.cluster_id = true)
    (hfresh : ∀ t ∈ db.tests, t.test_run_id ≠ some db.next_run_id) :
    ∃ db2 run, TestRun.start db ts md tests now = (db2, some run) ∧
      (tests = [] →
        (db2.tests.filter (fun t => t.test_run_id == some run.id)).map
            (fun t => (t.name, t.status)) =
          (db.tests.filter (fun t =>
              t.test_set_id == ts.id && t.test_run_id == none)).map
            (fun t => (t.name, some "wait_running"))) ∧
      (tests ≠ [] →
        (db2.tests.filter (fun t => t.test_run_id == some run.id)).map
            (fun t => (t.name, t.status)) =
          (db.tests.filter (fun t =>
              t.test_set_id == ts.id && t.test_run_id == none)).map
            (fun t => (t.name,
              some (if t.name ∈ tests then "wait_running"
                    else "disabled")))) := by
  refine ⟨(TestRun.add_test_run db ts.id md.cluster_id "running" tests now).1,
          (TestRun.add_test_run db ts.id md.cluster_id "running" tests now).2,
          by rw [TestRun.start, if_pos hgate], ?_⟩
  have hdb2 : (TestRun.add_test_run db ts.id md.cluster_id
      "running" tests now).1.tests =
      db.tests ++ cloneTests db.next_run_id tests db.next_test_id
        (db.tests.filter (fun t =>
          t.test_set_id == ts.id && t.test_run_id == none)) := rfl
  have hrid : (TestRun.add_test_run db ts.id md.cluster_id
      "running" tests now).2.id = db.next_run_id := rfl
  have hfilter : ((TestRun.add_test_run db ts.id md.cluster_id
      "running" tests now).1.tests).filter
        (fun t => t.test_run_id == some db.next_run_id) =
      cloneTests db.next_run_id tests db.next_test_id
        (db.tests.filter (fun t =>
          t.test_set_id == ts.id && t.test_run_id == none)) := by
    rw [hdb2, List.filter_append,
      List.filter_eq_nil_iff.mpr
        (fun t ht => by
          simp only [beq_iff_eq]
          exact hfresh t ht),
      cloneTests_filter_self, List.nil_append]
  rw [hrid, hfilter, cloneTests_map_name_status]
  constructor
  · intro hn
    subst hn
    simp
  · intro hn
    have hfun : (fun t : Test => (t.name,
        some (if tests ≠ [] ∧ t.name ∉ tests then "disabled"
              else "wait_running"))) =
        (fun t : Test => (t.name,
          some (if t.name ∈ tests then "wait_running" else "disabled"))) := by
      funext t
      by_cases hm : t.name ∈ tests
      · simp [hm]
      · simp [hm, hn]
    rw [hfun]

/-- C3 witness: starting `smoke` with enabled subset `[disk]` over the
template-only store — `net` is cloned `disabled`, `disk` `wait_running`. -/
theorem c3_witness :
    TestRun.is_last_running dbTemplatesOnly "smoke" 1 = true ∧
    (∀ t ∈ dbTemplatesOnly.tests,
      t.test_run_id ≠ some dbTemplatesOnly.next_run_id) ∧
    (∃ db2 run,
      TestRun.start dbTemplatesOnly smokeSet ⟨1⟩ ["disk"] 0 =
        (db2, some run) ∧
      (["disk"] = [] →
        (db2.tests.filter (fun t => t.test_run_id == some run.id)).map
            (fun t => (t.name, t.status)) =
          (dbTemplatesOnly.tests.filter (fun t =>
              t.test_set_id == smokeSet.id && t.test_run_id == none)).map
            (fun t => (t.name, some "wait_running"))) ∧
      ((["disk"] : List String) ≠ [] →
        (db2.tests.filter (fun t => t.test_run_id == some run.id)).map
            (fun t => (t.name, t.status)) =
          (dbTemplatesOnly.tests.filter (fun t =>
              t.test_set_id == smokeSet.id && t.test_run_id == none)).map
            (fun t => (t.name,
              some (if t.name ∈ (["disk"] : List String) then "wait_running"
                    else "disabled"))))) :=
  ⟨by decide, by decide,
   c3_clone_correctness dbTemplatesOnly smokeSet ⟨1⟩ ["disk"] 0
     (by decide) (by decide)⟩

end Ostf
